import Mathlib

/-!
Verification of the kodi_panel layout/caching engine (kodi_panel_display.py)
against its natural-language specification.

The Python source is shallowly embedded: pure functions become Lean
functions over String / Int / ℚ (Python float arithmetic in the embedded
functions only ever divides small integers; it is modelled exactly over ℚ,
and every concrete evaluation below uses values on which binary floating
point is also exact).  Exceptions are modelled with Option / an explicit
result type, and the module-global mutable state of the update loop is
modelled as explicit state records with transition functions.  String
processing is implemented by structural recursion over the character list
so that concrete runs reduce inside the kernel.
-/

namespace KodiPanel

/-! ## Python primitives used by the embedded code -/

/-- Model of Python str.lower restricted to the ASCII letters that the
comparison literals of the repository actually use. -/
def pyLower (s : String) : String := s.map Char.toLower

/-- Model of Python int() applied to a float: truncation toward zero. -/
def pyTrunc (q : ℚ) : Int := if 0 ≤ q then ⌊q⌋ else -⌊-q⌋

/-- Model of the Python slice s[0:n] for an arbitrary (possibly negative)
integer n: a negative bound counts from the end of the string and the
result is clamped to the available characters. -/
def pySlice (s : String) (n : Int) : String :=
  if 0 ≤ n then String.mk (s.toList.take n.toNat)
  else String.mk (s.toList.take ((s.length : Int) + n).toNat)

/-- Does one character list start with another?  (Structural model of the
pattern checks done with str.startswith and re.match in the source.) -/
def startsL : List Char → List Char → Bool
  | [], _ => true
  | _ :: _, [] => false
  | p :: ps, c :: cs => p == c && startsL ps cs

/-- Model of Python s.startswith(pat). -/
def startsWithS (s pat : String) : Bool := startsL pat.toList s.toList

/-- Whitespace as stripped by Python int(str). -/
def isPySpace (c : Char) : Bool :=
  c == ' ' || c == '\t' || c == '\n' || c == '\r' || c == '\x0b' || c == '\x0c'

/-- Strip leading and trailing whitespace (Python str.strip, as performed
implicitly by int(str)). -/
def trimL (l : List Char) : List Char :=
  ((l.dropWhile isPySpace).reverse.dropWhile isPySpace).reverse

/-- Numeric value of a list of decimal digit characters. -/
def digitsVal (l : List Char) : Nat :=
  l.foldl (fun acc c => acc * 10 + (c.toNat - ('0').toNat)) 0

/-- Model of Python int(str): optional surrounding whitespace, an optional
sign, then a nonempty run of decimal digits; none models the ValueError
raised for anything else.  (Underscore separators and non-ASCII digits,
which Python also accepts, do not occur in the telemetry strings this
repository parses and are modelled as errors.) -/
def pyInt (s : String) : Option Int :=
  let core : List Char → Option Int := fun ds =>
    if ds ≠ [] ∧ ds.all Char.isDigit then some (digitsVal ds : Int) else none
  match trimL s.toList with
  | '-' :: ds => (core ds).map (fun v => -v)
  | '+' :: ds => core ds
  | ds => core ds

/-- Split a character list at a separator character (Python str.split for
a one-character separator: "a:b".split(":") = ["a","b"], "".split(":") =
[""]). -/
def splitAtChar (sep : Char) : List Char → List (List Char)
  | [] => [[]]
  | c :: cs =>
      let r := splitAtChar sep cs
      if c == sep then [] :: r
      else
        match r with
        | [] => [[c]]
        | h :: t => (c :: h) :: t

/-- Number of occurrences of a character in a string (Python str.count for
a single-character argument). -/
def countChar (c : Char) (s : String) : Nat := s.toList.count c

/-! ## C1 — calc_progress (kodi_panel_display.py lines 2647-2675) -/

/-- sum(int(x) * 60 ** i for i, x in enumerate(reversed(s.split(':')))) :
parse a [h:]m:s style string to seconds; none models the ValueError that
int() raises on a non-integer part. -/
def parseSecs (s : String) : Option Int := do
  let vals ← (splitAtChar ':' s.toList).mapM (fun part => pyInt (String.mk part))
  return vals.foldl (fun acc x => acc * 60 + x) 0

/-- The colon-count guard of calc_progress: 1 <= s.count(":") <= 2. -/
def colonCountOK (s : String) : Bool :=
  1 ≤ countChar ':' s ∧ countChar ':' s ≤ 2

/-- Embedding of calc_progress(time_str, duration_str, layout_name).
The result is some r for a normal return of r (progress, 1, or the -1
"hide the progress bar" sentinel) and none when the Python code raises
ValueError out of int().  The final float division is modelled over ℚ. -/
def calc_progress (time_str duration_str _layout_name : String) : Option ℚ :=
  if time_str = "" ∨ duration_str = "" then some (-1)
  else if ¬(colonCountOK time_str ∧ colonCountOK duration_str) then some (-1)
  else
    match parseSecs time_str, parseSecs duration_str with
    | some cur_secs, some total_secs =>
        if 0 ≤ cur_secs ∧ 0 < total_secs then
          if total_secs ≤ cur_secs then some 1
          else some ((cur_secs : ℚ) / (total_secs : ℚ))
        else some (-1)
    | _, _ => none

/-! ## C2 — truncate_line (kodi_panel_display.py lines 1194-1223)

A PIL font is modelled by a per-character pixel width; the rendered width
of a string is the sum of its character widths (font.getsize(s)[0]). -/

/-- Width model for a loaded PIL font. -/
structure FontModel where
  charWidth : Char → Nat

/-- Rendered width of a character list under a font. -/
def textWidthL (f : FontModel) (l : List Char) : Nat :=
  (l.map f.charWidth).sum

/-- Rendered width of a string: font.getsize(s)[0]. -/
def textWidth (f : FontModel) (s : String) : Nat := textWidthL f s.toList

/-- The ellipsis character appended by truncate_line ("…"). -/
def ellipsisS : String := "…"

/-- The character-popping loop of truncate_line: while the width exceeds
avail, drop the final character.  A none result models the loop failing
to terminate (Python loops forever once new_text is empty and its zero
width still exceeds a negative avail).  The fuel argument is always
called with length + 1, which the loop can exhaust only by reaching the
empty list. -/
def truncLoop (f : FontModel) (avail : Int) : Nat → List Char → Option (List Char)
  | 0, _ => none
  | fuel + 1, cs =>
      if (textWidthL f cs : Int) ≤ avail then some cs
      else
        match cs with
        | [] => none
        | c :: rest => truncLoop f avail fuel ((c :: rest).dropLast)

/-- Final phase of truncate_line: run the pop loop on the estimated
slice, then append the ellipsis exactly when the loop had to pop (the
truncating flag is set on the first loop iteration, i.e. exactly when the
slice entered the loop wider than avail). -/
def truncFinish (f : FontModel) (avail : Int) (new_text : String) : Option String :=
  match truncLoop f avail (new_text.toList.length + 1) new_text.toList with
  | none => none
  | some cs =>
      if (textWidth f new_text : Int) > avail then
        some (String.mk cs ++ ellipsisS)
      else some (String.mk cs)

/-- Embedding of truncate_line(line, font, max_width).  none models a
non-returning execution (ZeroDivisionError forming avg_char when the
line's rendered width is zero yet exceeds max_width, or the
never-terminating pop loop).  The float divisions are modelled over ℚ. -/
def truncate_line (f : FontModel) (line : String) (max_width : Int) : Option String :=
  let t_width : Int := (textWidth f line : Int)
  if t_width ≤ max_width then some line
  else if t_width = 0 then none
  else
    let avg_char : ℚ := (line.length : ℚ) / (t_width : ℚ)
    let num_chars : Int := pyTrunc ((max_width : ℚ) / avg_char) + 4
    let new_text := pySlice line num_chars
    let avail_width : Int := max_width - (textWidth f ellipsisS : Int) + 6
    truncFinish f avail_width new_text

/-- Executable form of truncate_line: identical except that the character
count estimate is computed with integer division. -/
def truncate_line_run (f : FontModel) (line : String) (max_width : Int) : Option String :=
  let t_width : Int := (textWidth f line : Int)
  if t_width ≤ max_width then some line
  else if t_width = 0 then none
  else
    let num_chars : Int := (max_width * t_width).tdiv line.length + 4
    let new_text := pySlice line num_chars
    let avail_width : Int := max_width - (textWidth f ellipsisS : Int) + 6
    truncFinish f avail_width new_text

/-- A font in which every character, the ellipsis included, is one pixel
wide. -/
def unitFont : FontModel := ⟨fun _ => 1⟩

/-- A font with 4-pixel characters and a 9-pixel ellipsis. -/
def narrowFont : FontModel := ⟨fun c => if c = '…' then 9 else 4⟩

/-! ## C3 / C10 — check_display_expr (kodi_panel_display.py lines 1750-1803) -/

/-- A value stored in the telemetry dictionary: InfoLabels are strings,
InfoBooleans are Python booleans. -/
inductive PyVal where
  | s (v : String)
  | b (v : Bool)
deriving DecidableEq

/-- Python str() applied to a telemetry value (str(True) = "True"). -/
def pyStr : PyVal → String
  | .s v => v
  | .b true => "True"
  | .b false => "False"

/-- A telemetry snapshot: the key → value dictionary built from the
InfoLabel / InfoBoolean responses. -/
def Telemetry := List (String × PyVal)

/-- Dictionary lookup (func_name in info / info[func_name]). -/
def lookupTele (info : Telemetry) (k : String) : Option PyVal :=
  (info.find? (fun p => p.1 == k)).map (fun p => p.2)

/-- A string-manipulation callback as stored in STRING_CB: it receives
the telemetry dictionary, the screen mode and the layout name (the
screen-mode enum is modelled by its name string). -/
def StringCB := Telemetry → String → String → String

/-- The layout-element dictionary as far as check_display_expr reads it:
the optional display_if / display_ifnot keys, each holding a two-element
list [source-name, comparison-literal].  (A key holding a non-list value
is treated by the source exactly like an absent key when extracting, so
it is modelled as none.) -/
structure FieldDict where
  display_if : Option (String × String) := none
  display_ifnot : Option (String × String) := none

/-- Embedding of check_display_expr(field_dict, info, screen_mode,
layout_name), with the STRING_CB table passed explicitly.  Mirrors the
source line by line: the early returns for no conditional present and
for falsy func_name and test_str (both empty strings), telemetry-first
resolution with callback fallback, and case-insensitive comparison
exactly when the comparison literal lower-cases to "true" or "false". -/
def check_display_expr (field_dict : FieldDict) (info : Telemetry)
    (cbs : List (String × StringCB)) (screen_mode layout_name : String) : Bool :=
  if field_dict.display_if = none ∧ field_dict.display_ifnot = none then true
  else
    let sel : String × String × Bool :=
      match field_dict.display_if with
      | some (f, t) => (f, t, true)
      | none =>
          match field_dict.display_ifnot with
          | some (f, t) => (f, t, false)
          | none => ("", "", true)
    let func_name := sel.1
    let test_str := sel.2.1
    let check_equal := sel.2.2
    if func_name = "" ∧ test_str = "" then true
    else
      let compare : String → Bool := fun result_str =>
        if pyLower test_str = "true" ∨ pyLower test_str = "false" then
          if check_equal then pyLower result_str == pyLower test_str
          else pyLower result_str != pyLower test_str
        else
          if check_equal then result_str == test_str
          else result_str != test_str
      match lookupTele info func_name with
      | some v => compare (pyStr v)
      | none =>
          match cbs.find? (fun p => p.1 == func_name) with
          | some pcb => compare (pcb.2 info screen_mode layout_name)
          | none => false

/-! ## Theorems for claim C2 helper lemmas -/

/-- Truncation toward zero of an integer-over-natural quotient agrees
with Int.tdiv. -/
theorem pyTrunc_int_div_nat (p : Int) (n : Nat) :
    pyTrunc ((p : ℚ) / (n : ℚ)) = p.tdiv n := by
  cases Nat.eq_zero_or_pos n with
  | inl h0 =>
      subst h0
      simp [pyTrunc]
  | inr hn =>
      have hnq : (0 : ℚ) < (n : ℚ) := by exact_mod_cast hn
      rcases le_or_lt 0 p with hp | hp
      · have hq : (0 : ℚ) ≤ (p : ℚ) / (n : ℚ) :=
          div_nonneg (by exact_mod_cast hp) (le_of_lt hnq)
        rw [pyTrunc, if_pos hq, Rat.floor_intCast_div_natCast]
        exact (Int.tdiv_eq_ediv hp (Int.ofNat_nonneg n)).symm
      · have hq : (p : ℚ) / (n : ℚ) < 0 :=
          div_neg_of_neg_of_pos (by exact_mod_cast hp) hnq
        rw [pyTrunc, if_neg (not_le.mpr hq)]
        rw [← neg_div, show (-(p : ℚ)) = ((-p : Int) : ℚ) by push_cast; ring,
          Rat.floor_intCast_div_natCast]
        rw [← Int.tdiv_eq_ediv (by omega) (Int.ofNat_nonneg n), Int.neg_tdiv]
        omega

/-- The two chained float divisions that estimate the character count
evaluate to an exact integer quotient truncated toward zero. -/
theorem pyTrunc_est (a b : Int) (n : Nat) :
    pyTrunc ((a : ℚ) / ((n : ℚ) / (b : ℚ))) = (a * b).tdiv n := by
  rw [div_div_eq_mul_div,
    show (a : ℚ) * (b : ℚ) = ((a * b : Int) : ℚ) by push_cast; ring]
  exact pyTrunc_int_div_nat (a * b) n

theorem truncate_line_eq_run (f : FontModel) (line : String) (max_width : Int) :
    truncate_line f line max_width = truncate_line_run f line max_width := by
  simp only [truncate_line, truncate_line_run, pyTrunc_est]

/-- Step equation of the pop loop at positive fuel. -/
theorem truncLoop_succ (f : FontModel) (avail : Int) (fuel : Nat) (cs : List Char) :
    truncLoop f avail (fuel + 1) cs =
      if (textWidthL f cs : Int) ≤ avail then some cs
      else
        match cs with
        | [] => none
        | c :: rest => truncLoop f avail fuel ((c :: rest).dropLast) := rfl

/-- Everything truncLoop returns is an initial segment of its input whose
width has been driven down to at most avail. -/
theorem truncLoop_sound (f : FontModel) (avail : Int) :
    ∀ (fuel : Nat) (cs ds : List Char), truncLoop f avail fuel cs = some ds →
      (∃ ts, ds ++ ts = cs) ∧ (textWidthL f ds : Int) ≤ avail := by
  intro fuel
  induction fuel with
  | zero => intro cs ds h; simp [truncLoop] at h
  | succ n ih =>
      intro cs ds h
      rw [truncLoop_succ] at h
      by_cases hw : (textWidthL f cs : Int) ≤ avail
      · rw [if_pos hw] at h
        cases h
        exact ⟨⟨[], by simp⟩, hw⟩
      · rw [if_neg hw] at h
        cases cs with
        | nil => simp at h
        | cons c rest =>
            obtain ⟨⟨ts, hts⟩, hle⟩ := ih _ _ h
            refine ⟨⟨ts ++ [(c :: rest).getLast (by simp)], ?_⟩, hle⟩
            rw [← List.append_assoc, hts, List.dropLast_append_getLast]

/-- Width is additive across string concatenation. -/
theorem textWidthL_append (f : FontModel) (a b : List Char) :
    textWidthL f (a ++ b) = textWidthL f a + textWidthL f b := by
  simp [textWidthL]

/-- The slice taken by the character-count estimate is an initial segment
of the line. -/
theorem pySlice_toList (s : String) (n : Int) :
    ∃ k, (pySlice s n).toList = s.toList.take k := by
  unfold pySlice
  split
  · exact ⟨n.toNat, rfl⟩
  · exact ⟨((s.length : Int) + n).toNat, rfl⟩

/-- Everything truncFinish returns is built from an initial segment of
its input: either that segment alone (width already within avail), or a
proper initial segment with the ellipsis appended, its pre-ellipsis width
within avail. -/
theorem truncFinish_sound (f : FontModel) (avail : Int) (nt res : String)
    (h : truncFinish f avail nt = some res) :
    ∃ p ts, p ++ ts = nt.toList ∧ (textWidthL f p : Int) ≤ avail ∧
      (res = String.mk p ∨ (ts ≠ [] ∧ res = String.mk p ++ ellipsisS)) := by
  unfold truncFinish at h
  cases hL : truncLoop f avail (nt.toList.length + 1) nt.toList with
  | none => rw [hL] at h; exact absurd h (by simp)
  | some cs =>
      rw [hL] at h
      have h2 : (if (textWidth f nt : Int) > avail then
          some (String.mk cs ++ ellipsisS) else some (String.mk cs)) = some res := h
      obtain ⟨⟨ts, hts⟩, hle⟩ := truncLoop_sound f avail _ _ _ hL
      by_cases hf : (textWidth f nt : Int) > avail
      · rw [if_pos hf] at h2
        refine ⟨cs, ts, hts, hle, Or.inr ⟨?_, (Option.some.inj h2).symm⟩⟩
        intro hnil
        subst hnil
        rw [List.append_nil] at hts
        subst hts
        exact absurd hle (not_le.mpr hf)
      · rw [if_neg hf] at h2
        exact ⟨cs, ts, hts, hle, Or.inl (Option.some.inj h2).symm⟩

/-! ## Theorems for claim C2 -/

/-- Claim C2 counterexample.  In a font where every character (the
ellipsis included) is one pixel wide, truncating a ten-character line to
max_width 5 returns a nine-character strict initial segment whose
rendered width 9 exceeds 5, and no ellipsis is appended: both the width
bound and the appended-ellipsis part of the claim fail.  (The cause is
the "+ 6" slack in avail_width = max_width - ellipsis_width + 6.) -/
theorem truncate_line_claim_cex :
    truncate_line unitFont "aaaaaaaaaa" 5 = some "aaaaaaaaa" ∧
    (5 : Int) < (textWidth unitFont "aaaaaaaaaa" : Int) ∧
    ¬((textWidth unitFont "aaaaaaaaa" : Int) ≤ 5) ∧
    "aaaaaaaaa".toList.getLast? ≠ some '…' := by
  refine ⟨?_, by decide, by decide, by decide⟩
  rw [truncate_line_eq_run]
  decide

/-- Claim C2 (amended): when the line's rendered width is at most
max_width the line is returned unchanged; when it exceeds max_width, any
normal return is an initial segment of the line, either without ellipsis
(when the estimated slice already fit the internal avail width) or a
proper initial segment with ellipsis appended, and its rendered width is
at most max_width + 6 (not max_width: the avail width carries a "+ 6"
slack), the pre-ellipsis width being at most
max_width - ellipsis_width + 6. -/
theorem truncate_line_amended (f : FontModel) (line : String) (maxw : Int)
    (res : String) (h : truncate_line f line maxw = some res) :
    ((textWidth f line : Int) ≤ maxw → res = line) ∧
    (maxw < (textWidth f line : Int) →
      (∃ p rest : List Char, p ++ rest = line.toList ∧
        (res = String.mk p ∨ (rest ≠ [] ∧ res = String.mk p ++ ellipsisS))) ∧
      (textWidth f res : Int) ≤ maxw + 6) := by
  by_cases h1 : (textWidth f line : Int) ≤ maxw
  · simp only [truncate_line] at h
    rw [if_pos h1] at h
    refine ⟨fun _ => (Option.some.inj h).symm, fun h2 => absurd h1 (not_le.mpr h2)⟩
  · refine ⟨fun hc => absurd hc h1, fun _ => ?_⟩
    simp only [truncate_line] at h
    rw [if_neg h1] at h
    by_cases hz : (textWidth f line : Int) = 0
    · rw [if_pos hz] at h
      exact absurd h (by simp)
    · rw [if_neg hz] at h
      obtain ⟨p, ts, hpts, hle, hres⟩ := truncFinish_sound f _ _ _ h
      obtain ⟨k, hk⟩ := pySlice_toList line
        (pyTrunc ((maxw : ℚ) / ((line.length : ℚ) / ((textWidth f line : Int) : ℚ))) + 4)
      rw [hk] at hpts
      have hwhole : p ++ (ts ++ line.toList.drop k) = line.toList := by
        rw [← List.append_assoc, hpts, List.take_append_drop]
      constructor
      · refine ⟨p, ts ++ line.toList.drop k, hwhole, ?_⟩
        rcases hres with hres | ⟨hne, hres⟩
        · exact Or.inl hres
        · exact Or.inr ⟨by simp [hne], hres⟩
      · rcases hres with hres | ⟨_, hres⟩
        · subst hres
          have : textWidth f (String.mk p) = textWidthL f p := rfl
          omega
        · subst hres
          have : textWidth f (String.mk p ++ ellipsisS)
              = textWidthL f p + textWidth f ellipsisS := by
            have h2 : (String.mk p ++ ellipsisS).toList = p ++ ellipsisS.toList := rfl
            rw [textWidth, h2, textWidthL_append]
            rfl
          omega

/-- Witness for the amended C2 theorem: in the 4/9-pixel font a
twenty-character line truncated to 50 pixels comes back as an eleven
character segment plus ellipsis, 53 pixels wide (within 50 + 6, though
beyond the claimed 50). -/
theorem truncate_line_amended_witness :
    (((textWidth narrowFont "aaaaaaaaaaaaaaaaaaaa" : Int) ≤ 50 →
        "aaaaaaaaaaa…" = "aaaaaaaaaaaaaaaaaaaa") ∧
      ((50 : Int) < (textWidth narrowFont "aaaaaaaaaaaaaaaaaaaa" : Int) →
        (∃ p rest : List Char, p ++ rest = "aaaaaaaaaaaaaaaaaaaa".toList ∧
          ("aaaaaaaaaaa…" = String.mk p ∨
            (rest ≠ [] ∧ "aaaaaaaaaaa…" = String.mk p ++ ellipsisS))) ∧
        (textWidth narrowFont "aaaaaaaaaaa…" : Int) ≤ 50 + 6)) :=
  truncate_line_amended narrowFont "aaaaaaaaaaaaaaaaaaaa" 50 "aaaaaaaaaaa…"
    (by rw [truncate_line_eq_run]; decide)

/-! ## C4 — the resize step of get_artwork (kodi_panel_display.py lines 1590-1608) -/

/-- A decoded bitmap, abstracted to its pixel dimensions (cover.size). -/
structure Bitmap where
  w : Nat
  h : Nat
deriving DecidableEq

/-- Model of PIL Image.thumbnail((tw, th)) per its documented contract,
which the source comment restates ("reduce while maintaining aspect
ratio, which should be precisely what thumbnail accomplishes"): a no-op
when the image already fits the bounding box, else scale down by the
common ratio that makes it fit. -/
def thumbnailDims (img : Bitmap) (tw th : Nat) : Bitmap :=
  if img.w ≤ tw ∧ img.h ≤ th then img
  else
    let scale : ℚ := min ((tw : ℚ) / (img.w : ℚ)) ((th : ℚ) / (img.h : ℚ))
    ⟨(pyTrunc ((img.w : ℚ) * scale)).toNat, (pyTrunc ((img.h : ℚ) * scale)).toNat⟩

/-- The explicit resize of the enlarge branch (lines 1595-1603):
ratio = min(thumb_width / float(w), thumb_height / float(h)),
new size = (int(w * ratio), int(h * ratio)). -/
def enlargeDims (img : Bitmap) (tw th : Nat) : Bitmap :=
  let width_enlarge : ℚ := (tw : ℚ) / (img.w : ℚ)
  let height_enlarge : ℚ := (th : ℚ) / (img.h : ℚ)
  let scale := min width_enlarge height_enlarge
  ⟨(pyTrunc ((img.w : ℚ) * scale)).toNat, (pyTrunc ((img.h : ℚ) * scale)).toNat⟩

/-- The resize step at the end of get_artwork (lines 1590-1608): the
explicit resize runs when enlarge is set and the image is smaller than
the target in width or height (the source tests with or); otherwise
thumbnail containment runs. -/
def resize_step (img : Bitmap) (tw th : Nat) (enlarge : Bool) : Bitmap :=
  if enlarge ∧ (img.w < tw ∨ img.h < th) then enlargeDims img tw th
  else thumbnailDims img tw th

/-! ## C5 — the static-image cache of audio_screens (lines 2285-2322) -/

/-- The four InfoLabels whose values fingerprint the playing item for the
audio static cache (lines 2306-2309 / 2315-2318). -/
structure AudioFields where
  trackNumber : String
  title : String
  album : String
  duration : String
deriving DecidableEq

/-- The module globals read and written by the cache check of
audio_screens: _static_image, _static_video and the four _last_track_*
fingerprint variables (all initially None).  Rendered bitmaps are
abstracted to Nat tags, so that reuse of the same object is visible.
(_last_thumb, which the rebuild path first clears and the static
renderer then repopulates, lives inside the opaque static render and is
not part of this record.) -/
structure AudioCacheState where
  static_image : Option Nat
  static_video : Bool
  last_track_num : Option String
  last_track_title : Option String
  last_track_album : Option String
  last_track_time : Option String
deriving DecidableEq

/-- Embedding of the static-cache check of audio_screens (lines
2305-2321): on a hit — a cached image exists, it was produced by the
audio side, and all four fingerprint labels match — the cached image is
pasted with no static render; otherwise audio_screen_static (the render
argument) is rerun and the fingerprint replaced.  Returns the new cache
state, the pasted static image, and whether the static subset was
re-rendered. -/
def audio_screens_cache_step (render : AudioFields → Nat)
    (s : AudioCacheState) (info : AudioFields) :
    AudioCacheState × Nat × Bool :=
  let rebuilt :=
    let img := render info
    ({ static_image := some img,
       static_video := false,
       last_track_num := some info.trackNumber,
       last_track_title := some info.title,
       last_track_album := some info.album,
       last_track_time := some info.duration }, img, true)
  match s.static_image with
  | some img =>
      if s.static_video = false ∧
          s.last_track_num = some info.trackNumber ∧
          s.last_track_title = some info.title ∧
          s.last_track_album = some info.album ∧
          s.last_track_time = some info.duration then
        (s, img, false)
      else rebuilt
  | none => rebuilt

/-! ## C6 — glitch suppression in update_display (lines 2710-2941) -/

/-- The InfoLabels that the audio branch of update_display inspects
before rendering (lines 2928-2935). -/
structure AudioTickInfo where
  time : String
  duration : String
  cover : String
  fileandpath : String
  title : String
  trackNumber : String
  album : String
deriving DecidableEq

/-- Projection to the static-cache fingerprint fields. -/
def AudioTickInfo.toFields (i : AudioTickInfo) : AudioFields :=
  ⟨i.trackNumber, i.title, i.album, i.duration⟩

/-- The shared frame image: blanked by the black-rectangle wipe, or
carrying content from an earlier tick, or carrying this tick's audio
render. -/
inductive Frame where
  | blank : Frame
  | prior (tag : Nat) : Frame
  | audioRendered (info : AudioTickInfo) : Frame
deriving DecidableEq

/-- The module state touched by an audio tick of update_display. -/
structure PanelState where
  kodi_connected : Bool
  kodi_playing : Bool
  screen_press : Bool
  audio_mode : Nat
  cache : AudioCacheState
  last_thumb : Option Nat
  last_image_time : Option Nat
  frame : Frame
deriving DecidableEq

/-- The suppression test of lines 2924-2935: the DLNA/UPnP track-change
hiccup (zero elapsed time with empty duration and cover) or the AirPlay
startup shape. -/
def glitchTick (i : AudioTickInfo) : Bool :=
  ((i.time == "00:00" || i.time == "00:00:00") && i.duration == "" && i.cover == "")
    || (startsWithS i.fileandpath "pipe://"
        && (i.title == "AirPlay" || i.title == ""))

/-- Embedding of one audio tick of update_display: the top-of-function
blank wipe when no connected static image exists (lines 2718-2721), the
_kodi_playing flag, press handling (lines 2892-2901, advancing the
layout variant and clearing artwork and static caches when autoselect is
off), then the glitch check; on a non-glitch tick the rest of
audio_screens runs (passed in as an opaque transition, since its
behavior is irrelevant to the suppressed tick).  device.display then
shows the resulting frame either way. -/
def update_display_audio (audioScreens : PanelState → AudioTickInfo → PanelState)
    (autoselect : Bool) (s : PanelState) (touched : Bool)
    (info : AudioTickInfo) : PanelState :=
  let s1 := if ¬(s.kodi_connected ∧ s.cache.static_image.isSome) then
      { s with frame := Frame.blank }
    else s
  let s2 := { s1 with kodi_playing := true }
  let s3 :=
    if s2.screen_press ∨ touched then
      let s2b := { s2 with screen_press := false }
      if ¬autoselect then
        { s2b with audio_mode := s2b.audio_mode + 1,
                   last_image_time := none,
                   last_thumb := none,
                   cache := { s2b.cache with static_image := none } }
      else s2b
    else s2
  if glitchTick info then s3 else audioScreens s3 info

/-- A glitch-shaped telemetry snapshot: zero elapsed time, empty
duration, empty cover. -/
def glitchInfo : AudioTickInfo :=
  ⟨"00:00", "", "", "song.mp3", "Song", "1", "Album"⟩

/-- A tick state with no cached static image (as after an idle tick) but
prior content on the shared frame. -/
def stateNoStatic : PanelState :=
  ⟨true, false, false, 0, ⟨none, false, none, none, none, none⟩, none, none,
    Frame.prior 5⟩

/-- A tick state holding a cached audio static image. -/
def stateWithStatic : PanelState :=
  ⟨true, true, false, 0,
    ⟨some 3, false, some "1", some "Song", some "Album", some "3:00"⟩,
    some 4, none, Frame.prior 5⟩

/-! ## C7 — the communication-error handler of main (lines 3102-3111) -/

/-- The lru_cache key of get_artwork:
(cover_path, thumb_width, thumb_height, use_defaults, enlarge). -/
abbrev ArtKey := String × Nat × Nat × Bool × Bool

/-- The per-session state visible to the update loop of main. -/
structure LoopState where
  kodi_connected : Bool
  kodi_playing : Bool
  screen_press : Bool
  lock_held : Bool
  liveness_polling : Bool
  artwork_cache : List (ArtKey × Bitmap)
  static_image : Option Nat
  last_thumb : Option Nat
  last_image_time : Option Nat
deriving DecidableEq

/-- Embedding of the except-handler for ConnectionRefusedError /
requests.exceptions.ConnectionError around update_display() (lines
3104-3111): clear the connected and playing flags, clear the pending
press, release the lock if held, and break back to the outer loop, which
re-enters the JSONRPC.Ping liveness poll.  No other state is touched. -/
def on_comm_error (s : LoopState) : LoopState :=
  { s with kodi_connected := false, kodi_playing := false,
           screen_press := false, lock_held := false,
           liveness_polling := true }

/-- A mid-session state, all caches populated, as main would hold it
when the transport fails. -/
def commErrState : LoopState :=
  ⟨true, true, true, true, false, [(("art.jpg", 140, 140, true, false), ⟨9, 9⟩)],
    some 3, some 4, some 5⟩

/-! ## C8 — error handling in get_artwork (lines 1528-1610) -/

/-- The result of running a Python fragment: a value, or an uncaught
exception propagating to the caller. -/
inductive PyResult (α : Type) where
  | ok (a : α) : PyResult α
  | exn : PyResult α
deriving DecidableEq

/-- The external collaborators of get_artwork.  prepare models the
Files.PrepareDownload JSON-RPC round trip of lines 1548-1564: exn when
requests.post or .json() raises (network down, non-JSON reply), ok none
when the reply lacks result.details.path (the try/except leaves
image_url = None), ok (some url) for a successful translation to
base_url + "/" + path.  fetchDecode models requests.get plus Image.open
of lines 1566-1575: exn when requests.get raises, ok none for a non-200
status, ok (some none) for a 200 reply whose bytes fail to decode
(caught: image_set stays False), ok (some (some img)) for a decoded
image. -/
structure ArtworkEnv where
  prepare : String → PyResult (Option String)
  fetchDecode : String → PyResult (Option (Option Bitmap))
  defaultVideoImg : Bitmap
  defaultAudioImg : Bitmap

/-- The _airtunes_re.match test: the fixed AirPlay cover path (any
suffix may follow, as re.match only anchors the start). -/
def is_airtunes (s : String) : Bool :=
  startsWithS s "special://temp/airtunes_album_thumb.png"
    || startsWithS s "special://temp/airtunes_album_thumb.jpg"

/-- The guard of lines 1536-1539 deciding whether a network fetch is
attempted at all. -/
def fetchPath (cover_path : String) : Bool :=
  cover_path != "" && !startsWithS cover_path "DefaultVideoCover"
    && !startsWithS cover_path "DefaultAlbumCover" && !is_airtunes cover_path

/-- URL resolution (lines 1544-1564): an absolute http(s) reference is
used as is; anything else goes through PrepareDownload. -/
def resolvedUrl (env : ArtworkEnv) (cover_path : String) : PyResult (Option String) :=
  if startsWithS cover_path "http://" ∨ startsWithS cover_path "https://" then
    .ok (some cover_path)
  else env.prepare cover_path

/-- Lines 1577-1610: fall back to a default image when nothing was
fetched and use_defaults is set (video default only for the
DefaultVideoCover sentinel, audio default otherwise), then resize
whatever is present; with no image and no defaults, return None. -/
def get_artwork_fallback (env : ArtworkEnv) (cover_path : String) (tw th : Nat)
    (use_defaults enlarge : Bool) (cover : Option Bitmap) : PyResult (Option Bitmap) :=
  match cover with
  | some img => .ok (some (resize_step img tw th enlarge))
  | none =>
      if use_defaults then
        let d := if startsWithS cover_path "DefaultVideoCover" then
            env.defaultVideoImg
          else env.defaultAudioImg
        .ok (some (resize_step d tw th enlarge))
      else .ok none

/-- Embedding of the body of get_artwork (its lru_cache wrapper is the
subject of C9, modelled separately).  Note that when URL resolution
fails — transport error in PrepareDownload, or a reply without a path,
which leaves image_url = None so that requests.get(None) raises
MissingSchema — the exception escapes: no fallback guards lines
1554-1566. -/
def get_artwork (env : ArtworkEnv) (cover_path : String) (tw th : Nat)
    (use_defaults enlarge : Bool) : PyResult (Option Bitmap) :=
  if fetchPath cover_path then
    match resolvedUrl env cover_path with
    | .exn => .exn
    | .ok none => .exn
    | .ok (some url) =>
        match env.fetchDecode url with
        | .exn => .exn
        | .ok none => get_artwork_fallback env cover_path tw th use_defaults enlarge none
        | .ok (some none) =>
            get_artwork_fallback env cover_path tw th use_defaults enlarge none
        | .ok (some (some img)) =>
            get_artwork_fallback env cover_path tw th use_defaults enlarge (some img)
  else get_artwork_fallback env cover_path tw th use_defaults enlarge none

/-- An environment in which PrepareDownload answers without a usable
path and every direct fetch yields a non-200 status. -/
def failingEnv : ArtworkEnv :=
  ⟨fun _ => .ok none, fun _ => .ok none, ⟨10, 10⟩, ⟨8, 8⟩⟩

/-! ## C9 — the lru_cache memoization of get_artwork (line 1528) -/

/-- Model of functools.lru_cache(maxsize) around a function f: the cache
is a most-recent-first association list.  A hit returns the stored value
after refreshing its recency, without running the body; a miss runs the
body, stores the result, and evicts the least recent entry beyond
maxsize.  The Bool reports whether the body ran (for get_artwork, the
body is what performs PrepareDownload and the HTTP image fetch). -/
def lruCall (maxsize : Nat) (f : ArtKey → Bitmap)
    (cache : List (ArtKey × Bitmap)) (k : ArtKey) :
    Bitmap × List (ArtKey × Bitmap) × Bool :=
  match cache.find? (fun p => p.1 == k) with
  | some hit => (hit.2, (k, hit.2) :: cache.filter (fun p => !(p.1 == k)), false)
  | none =>
      let v := f k
      (v, ((k, v) :: cache).take maxsize, true)

/-! ## Theorems for claims C3 and C10 -/

/-- Claim C3 counterexample.  A display_if list whose source name and
comparison literal are both empty strings hits the falsy early return at
line 1770 of the source and displays the element unconditionally, even
though the (empty-string) telemetry key resolves to "x", which differs
from the empty comparison literal, so the claim requires the result
false. -/
theorem check_display_expr_claim_cex :
    check_display_expr ⟨some ("", ""), none⟩ [("", PyVal.s "x")] [] "AUDIO" "Default"
        = true ∧
    lookupTele [("", PyVal.s "x")] "" = some (PyVal.s "x") ∧
    pyStr (PyVal.s "x") ≠ "" :=
  ⟨rfl, rfl, by decide⟩

/-- Claim C3 (amended): except when the source name and the comparison
literal are both empty strings (in which case the element is displayed
unconditionally), check_display_expr resolves the named source — the
telemetry key first, else the string-callback registry entry — and
returns, for display_if, whether the stringified result equals the
comparison literal, and for display_ifnot whether it differs, comparing
case-insensitively exactly when the literal lower-cases to "true" or
"false" and exactly otherwise. -/
theorem check_display_expr_amended (fn ts : String) (info : Telemetry)
    (cbs : List (String × StringCB)) (mode layout : String)
    (hnz : ¬(fn = "" ∧ ts = "")) :
    (∀ v, lookupTele info fn = some v →
        check_display_expr ⟨some (fn, ts), none⟩ info cbs mode layout =
          (if pyLower ts = "true" ∨ pyLower ts = "false" then
            pyLower (pyStr v) == pyLower ts
          else pyStr v == ts) ∧
        check_display_expr ⟨none, some (fn, ts)⟩ info cbs mode layout =
          (if pyLower ts = "true" ∨ pyLower ts = "false" then
            pyLower (pyStr v) != pyLower ts
          else pyStr v != ts)) ∧
    (∀ nm cb, lookupTele info fn = none →
        cbs.find? (fun p => p.1 == fn) = some (nm, cb) →
        check_display_expr ⟨some (fn, ts), none⟩ info cbs mode layout =
          (if pyLower ts = "true" ∨ pyLower ts = "false" then
            pyLower (cb info mode layout) == pyLower ts
          else cb info mode layout == ts) ∧
        check_display_expr ⟨none, some (fn, ts)⟩ info cbs mode layout =
          (if pyLower ts = "true" ∨ pyLower ts = "false" then
            pyLower (cb info mode layout) != pyLower ts
          else cb info mode layout != ts)) := by
  constructor
  · intro v hv
    constructor
    · simp only [check_display_expr]
      rw [if_neg (by simp), if_neg hnz, hv]
      simp
    · simp only [check_display_expr]
      rw [if_neg (by simp), if_neg hnz, hv]
      simp
  · intro nm cb hv hcb
    constructor
    · simp only [check_display_expr]
      rw [if_neg (by simp), if_neg hnz, hv, hcb]
      simp
    · simp only [check_display_expr]
      rw [if_neg (by simp), if_neg hnz, hv, hcb]
      simp

/-- Witness for the amended C3 theorem: the spec's own example,
display_if = ["System.ScreenSaverActive", "true"] against a boolean
telemetry value True, which stringifies to "True" and compares equal
case-insensitively. -/
theorem check_display_expr_amended_witness :
    check_display_expr ⟨some ("System.ScreenSaverActive", "true"), none⟩
        [("System.ScreenSaverActive", PyVal.b true)] [] "AUDIO" "Default" =
      (if pyLower "true" = "true" ∨ pyLower "true" = "false" then
        pyLower (pyStr (PyVal.b true)) == pyLower "true"
      else pyStr (PyVal.b true) == "true") ∧
    check_display_expr ⟨none, some ("System.ScreenSaverActive", "true")⟩
        [("System.ScreenSaverActive", PyVal.b true)] [] "AUDIO" "Default" =
      (if pyLower "true" = "true" ∨ pyLower "true" = "false" then
        pyLower (pyStr (PyVal.b true)) != pyLower "true"
      else pyStr (PyVal.b true) != "true") :=
  (check_display_expr_amended "System.ScreenSaverActive" "true"
      [("System.ScreenSaverActive", PyVal.b true)] [] "AUDIO" "Default"
      (by decide)).1 (PyVal.b true) rfl

/-- Claim C10 counterexample.  With an empty telemetry dictionary and an
empty callback registry, the source ["", ""] names a source that is in
neither table, yet check_display_expr returns true (the falsy early
return fires before the lookup), not false as the claim requires. -/
theorem check_display_expr_missing_cex :
    lookupTele [] "" = none ∧
    (([] : List (String × StringCB)).find? (fun p => p.1 == "")) = none ∧
    check_display_expr ⟨some ("", ""), none⟩ [] [] "AUDIO" "Default" = true :=
  ⟨rfl, rfl, rfl⟩

/-- Claim C10 (amended): a display_if or display_ifnot whose source name
is neither a telemetry key nor a callback-registry key makes
check_display_expr return false — except when the source name and the
comparison literal are both empty strings, in which case the falsy early
return yields true before any lookup. -/
theorem check_display_expr_missing_amended (fn ts : String) (info : Telemetry)
    (cbs : List (String × StringCB)) (mode layout : String)
    (h1 : lookupTele info fn = none)
    (h2 : cbs.find? (fun p => p.1 == fn) = none)
    (hnz : ¬(fn = "" ∧ ts = "")) :
    check_display_expr ⟨some (fn, ts), none⟩ info cbs mode layout = false ∧
    check_display_expr ⟨none, some (fn, ts)⟩ info cbs mode layout = false := by
  constructor
  · simp only [check_display_expr]
    rw [if_neg (by simp), if_neg hnz, h1, h2]
  · simp only [check_display_expr]
    rw [if_neg (by simp), if_neg hnz, h1, h2]

/-- Witness for the amended C10 theorem: an unknown source name hides
the element for both display_if and display_ifnot. -/
theorem check_display_expr_missing_witness :
    check_display_expr ⟨some ("NoSuchLabel", "x"), none⟩ [] [] "AUDIO" "Default"
        = false ∧
    check_display_expr ⟨none, some ("NoSuchLabel", "x")⟩ [] [] "AUDIO" "Default"
        = false :=
  check_display_expr_missing_amended "NoSuchLabel" "x" [] [] "AUDIO" "Default"
    rfl rfl (by decide)

/-! ## Theorems for claim C4 -/

theorem pyTrunc_of_nonneg (q : ℚ) (h : 0 ≤ q) : pyTrunc q = ⌊q⌋ := if_pos h

theorem pyTrunc_natCast (n : Nat) : pyTrunc (n : ℚ) = (n : Int) := by
  rw [pyTrunc_of_nonneg _ (by positivity), Int.floor_natCast]

/-- Scaling with any factor below the width ratio keeps the result within
the target. -/
theorem scaled_le_target (w tw : Nat) (hw : 0 < w) (s : ℚ) (hs0 : 0 ≤ s)
    (hs : s ≤ (tw : ℚ) / (w : ℚ)) :
    (pyTrunc ((w : ℚ) * s)).toNat ≤ tw := by
  have hwq : (0 : ℚ) < (w : ℚ) := by exact_mod_cast hw
  have h1 : (w : ℚ) * s ≤ (tw : ℚ) := by
    calc (w : ℚ) * s ≤ (w : ℚ) * ((tw : ℚ) / (w : ℚ)) :=
          mul_le_mul_of_nonneg_left hs (le_of_lt hwq)
      _ = (tw : ℚ) := by rw [mul_comm]; exact div_mul_cancel₀ _ (ne_of_gt hwq)
  have h2 : ⌊(w : ℚ) * s⌋ ≤ (tw : Int) := by
    calc ⌊(w : ℚ) * s⌋ ≤ ⌊(tw : ℚ)⌋ := Int.floor_mono h1
      _ = (tw : Int) := Int.floor_natCast tw
  rw [pyTrunc_of_nonneg _ (mul_nonneg (by positivity) hs0)]
  omega

/-- Scaling with a factor at most one cannot grow a dimension. -/
theorem scaled_le_self (w : Nat) (s : ℚ) (hs0 : 0 ≤ s) (hs : s ≤ 1) :
    (pyTrunc ((w : ℚ) * s)).toNat ≤ w := by
  have h1 : (w : ℚ) * s ≤ (w : ℚ) := by
    calc (w : ℚ) * s ≤ (w : ℚ) * 1 := mul_le_mul_of_nonneg_left hs (by positivity)
      _ = (w : ℚ) := mul_one _
  have h2 : ⌊(w : ℚ) * s⌋ ≤ (w : Int) := by
    calc ⌊(w : ℚ) * s⌋ ≤ ⌊(w : ℚ)⌋ := Int.floor_mono h1
      _ = (w : Int) := Int.floor_natCast w
  rw [pyTrunc_of_nonneg _ (mul_nonneg (by positivity) hs0)]
  omega

/-- Scaling with a factor at least one cannot shrink a dimension. -/
theorem scaled_ge_self (w : Nat) (s : ℚ) (hs : 1 ≤ s) :
    w ≤ (pyTrunc ((w : ℚ) * s)).toNat := by
  have hs0 : (0 : ℚ) ≤ s := le_trans zero_le_one hs
  have h1 : (w : ℚ) ≤ (w : ℚ) * s := le_mul_of_one_le_right (by positivity) hs
  have h2 : (w : Int) ≤ ⌊(w : ℚ) * s⌋ := by
    rw [Int.le_floor]
    push_cast
    exact h1
  rw [pyTrunc_of_nonneg _ (mul_nonneg (by positivity) hs0)]
  omega

/-- Scaling the constraining dimension by its own target ratio lands
exactly on the target. -/
theorem scaled_exact (w tw : Nat) (hw : 0 < w) :
    (pyTrunc ((w : ℚ) * ((tw : ℚ) / (w : ℚ)))).toNat = tw := by
  have hwq : ((w : ℚ)) ≠ 0 := by positivity
  rw [mul_comm, div_mul_cancel₀ _ hwq, pyTrunc_natCast]
  omega

/-- Claim C4 (confirmed): the resize step scales the image up — no
dimension shrinks and at least one strictly grows — exactly when the
enlarge flag is set and the source is strictly smaller than the target
in both dimensions, and then the result still fits within the target;
in every other case the result fits within the target without any
dimension growing; and both branches scale the two dimensions by one
common nonnegative ratio (aspect preservation up to int truncation).
Note the source tests enlarge with an or of the two dimension
comparisons, but with ratio = min of the two axis ratios the branch
still only ever grows the image when both dimensions are smaller. -/
theorem get_artwork_resize_claim (img : Bitmap) (tw th : Nat) (enlarge : Bool)
    (hw : 0 < img.w) (hh : 0 < img.h) :
    ((enlarge = true ∧ img.w < tw ∧ img.h < th) →
        img.w ≤ (resize_step img tw th enlarge).w ∧
        img.h ≤ (resize_step img tw th enlarge).h ∧
        (img.w < (resize_step img tw th enlarge).w ∨
          img.h < (resize_step img tw th enlarge).h) ∧
        (resize_step img tw th enlarge).w ≤ tw ∧
        (resize_step img tw th enlarge).h ≤ th) ∧
    (¬(enlarge = true ∧ img.w < tw ∧ img.h < th) →
        (resize_step img tw th enlarge).w ≤ img.w ∧
        (resize_step img tw th enlarge).h ≤ img.h ∧
        (resize_step img tw th enlarge).w ≤ tw ∧
        (resize_step img tw th enlarge).h ≤ th) ∧
    ((img.w ≤ (resize_step img tw th enlarge).w ∧
      img.h ≤ (resize_step img tw th enlarge).h ∧
      (img.w < (resize_step img tw th enlarge).w ∨
        img.h < (resize_step img tw th enlarge).h)) ↔
      (enlarge = true ∧ img.w < tw ∧ img.h < th)) ∧
    (∃ scale : ℚ, 0 ≤ scale ∧
      (resize_step img tw th enlarge).w = (pyTrunc ((img.w : ℚ) * scale)).toNat ∧
      (resize_step img tw th enlarge).h = (pyTrunc ((img.h : ℚ) * scale)).toNat) := by
  have hwq : (0 : ℚ) < (img.w : ℚ) := by exact_mod_cast hw
  have hhq : (0 : ℚ) < (img.h : ℚ) := by exact_mod_cast hh
  have hwr0 : (0 : ℚ) ≤ (tw : ℚ) / (img.w : ℚ) := by positivity
  have hhr0 : (0 : ℚ) ≤ (th : ℚ) / (img.h : ℚ) := by positivity
  have hmin0 : (0 : ℚ) ≤ min ((tw : ℚ) / (img.w : ℚ)) ((th : ℚ) / (img.h : ℚ)) :=
    le_min hwr0 hhr0
  have hEw : (enlargeDims img tw th).w =
      (pyTrunc ((img.w : ℚ) * min ((tw : ℚ) / (img.w : ℚ)) ((th : ℚ) / (img.h : ℚ)))).toNat := rfl
  have hEh : (enlargeDims img tw th).h =
      (pyTrunc ((img.h : ℚ) * min ((tw : ℚ) / (img.w : ℚ)) ((th : ℚ) / (img.h : ℚ)))).toNat := rfl
  have hA : (enlarge = true ∧ img.w < tw ∧ img.h < th) →
      img.w ≤ (resize_step img tw th enlarge).w ∧
      img.h ≤ (resize_step img tw th enlarge).h ∧
      (img.w < (resize_step img tw th enlarge).w ∨
        img.h < (resize_step img tw th enlarge).h) ∧
      (resize_step img tw th enlarge).w ≤ tw ∧
      (resize_step img tw th enlarge).h ≤ th := by
    rintro ⟨he, hw2, hh2⟩
    have hbr : resize_step img tw th enlarge = enlargeDims img tw th := by
      unfold resize_step
      rw [if_pos ⟨he, Or.inl hw2⟩]
    rw [hbr, hEw, hEh]
    have h1 : (1 : ℚ) < (tw : ℚ) / (img.w : ℚ) :=
      (one_lt_div hwq).mpr (by exact_mod_cast hw2)
    have h2 : (1 : ℚ) < (th : ℚ) / (img.h : ℚ) :=
      (one_lt_div hhq).mpr (by exact_mod_cast hh2)
    have hs1 : (1 : ℚ) ≤ min ((tw : ℚ) / (img.w : ℚ)) ((th : ℚ) / (img.h : ℚ)) :=
      le_min (le_of_lt h1) (le_of_lt h2)
    refine ⟨scaled_ge_self _ _ hs1, scaled_ge_self _ _ hs1, ?_,
      scaled_le_target _ _ hw _ hmin0 (min_le_left _ _),
      scaled_le_target _ _ hh _ hmin0 (min_le_right _ _)⟩
    rcases min_cases ((tw : ℚ) / (img.w : ℚ)) ((th : ℚ) / (img.h : ℚ)) with
      ⟨heq, _⟩ | ⟨heq, _⟩
    · left
      rw [heq, scaled_exact _ _ hw]
      exact hw2
    · right
      rw [heq, scaled_exact _ _ hh]
      exact hh2
  have hB : ¬(enlarge = true ∧ img.w < tw ∧ img.h < th) →
      (resize_step img tw th enlarge).w ≤ img.w ∧
      (resize_step img tw th enlarge).h ≤ img.h ∧
      (resize_step img tw th enlarge).w ≤ tw ∧
      (resize_step img tw th enlarge).h ≤ th := by
    intro hnc
    by_cases hc2 : enlarge = true ∧ (img.w < tw ∨ img.h < th)
    · have hbr : resize_step img tw th enlarge = enlargeDims img tw th := by
        unfold resize_step
        rw [if_pos hc2]
      have hone : min ((tw : ℚ) / (img.w : ℚ)) ((th : ℚ) / (img.h : ℚ)) ≤ 1 := by
        have : tw ≤ img.w ∨ th ≤ img.h := by
          rcases hc2 with ⟨he, _⟩
          by_contra hcon
          push_neg at hcon
          exact hnc ⟨he, hcon.1, hcon.2⟩
        rcases this with hle | hle
        · exact le_trans (min_le_left _ _) ((div_le_one hwq).mpr (by exact_mod_cast hle))
        · exact le_trans (min_le_right _ _) ((div_le_one hhq).mpr (by exact_mod_cast hle))
      rw [hbr, hEw, hEh]
      exact ⟨scaled_le_self _ _ hmin0 hone, scaled_le_self _ _ hmin0 hone,
        scaled_le_target _ _ hw _ hmin0 (min_le_left _ _),
        scaled_le_target _ _ hh _ hmin0 (min_le_right _ _)⟩
    · have hbr : resize_step img tw th enlarge = thumbnailDims img tw th := by
        unfold resize_step
        rw [if_neg hc2]
      by_cases hfit : img.w ≤ tw ∧ img.h ≤ th
      · have hthm : thumbnailDims img tw th = img := by
          unfold thumbnailDims
          rw [if_pos hfit]
        rw [hbr, hthm]
        exact ⟨le_refl _, le_refl _, hfit.1, hfit.2⟩
      · have hTw : (thumbnailDims img tw th).w =
            (pyTrunc ((img.w : ℚ) *
              min ((tw : ℚ) / (img.w : ℚ)) ((th : ℚ) / (img.h : ℚ)))).toNat := by
          unfold thumbnailDims
          rw [if_neg hfit]
        have hTh : (thumbnailDims img tw th).h =
            (pyTrunc ((img.h : ℚ) *
              min ((tw : ℚ) / (img.w : ℚ)) ((th : ℚ) / (img.h : ℚ)))).toNat := by
          unfold thumbnailDims
          rw [if_neg hfit]
        have hone : min ((tw : ℚ) / (img.w : ℚ)) ((th : ℚ) / (img.h : ℚ)) ≤ 1 := by
          have : tw < img.w ∨ th < img.h := by
            by_contra hcon
            push_neg at hcon
            exact hfit ⟨hcon.1, hcon.2⟩
          rcases this with hlt | hlt
          · exact le_trans (min_le_left _ _)
              (le_of_lt ((div_lt_one hwq).mpr (by exact_mod_cast hlt)))
          · exact le_trans (min_le_right _ _)
              (le_of_lt ((div_lt_one hhq).mpr (by exact_mod_cast hlt)))
        rw [hbr, hTw, hTh]
        exact ⟨scaled_le_self _ _ hmin0 hone, scaled_le_self _ _ hmin0 hone,
          scaled_le_target _ _ hw _ hmin0 (min_le_left _ _),
          scaled_le_target _ _ hh _ hmin0 (min_le_right _ _)⟩
  refine ⟨hA, hB, ⟨?_, ?_⟩, ?_⟩
  · rintro ⟨hle1, hle2, hlt⟩
    by_contra hnc
    obtain ⟨hb1, hb2, _, _⟩ := hB hnc
    rcases hlt with hlt | hlt
    · exact absurd hlt (not_lt.mpr hb1)
    · exact absurd hlt (not_lt.mpr hb2)
  · intro hc
    exact ⟨(hA hc).1, (hA hc).2.1, (hA hc).2.2.1⟩
  · by_cases hc2 : enlarge = true ∧ (img.w < tw ∨ img.h < th)
    · have hbr : resize_step img tw th enlarge = enlargeDims img tw th := by
        unfold resize_step
        rw [if_pos hc2]
      exact ⟨min ((tw : ℚ) / (img.w : ℚ)) ((th : ℚ) / (img.h : ℚ)), hmin0,
        by rw [hbr, hEw], by rw [hbr, hEh]⟩
    · have hbr : resize_step img tw th enlarge = thumbnailDims img tw th := by
        unfold resize_step
        rw [if_neg hc2]
      by_cases hfit : img.w ≤ tw ∧ img.h ≤ th
      · have hthm : thumbnailDims img tw th = img := by
          unfold thumbnailDims
          rw [if_pos hfit]
        refine ⟨1, zero_le_one, ?_, ?_⟩
        · rw [hbr, hthm, mul_one, pyTrunc_natCast]
          omega
        · rw [hbr, hthm, mul_one, pyTrunc_natCast]
          omega
      · have hTw : (thumbnailDims img tw th).w =
            (pyTrunc ((img.w : ℚ) *
              min ((tw : ℚ) / (img.w : ℚ)) ((th : ℚ) / (img.h : ℚ)))).toNat := by
          unfold thumbnailDims
          rw [if_neg hfit]
        have hTh : (thumbnailDims img tw th).h =
            (pyTrunc ((img.h : ℚ) *
              min ((tw : ℚ) / (img.w : ℚ)) ((th : ℚ) / (img.h : ℚ)))).toNat := by
          unfold thumbnailDims
          rw [if_neg hfit]
        exact ⟨min ((tw : ℚ) / (img.w : ℚ)) ((th : ℚ) / (img.h : ℚ)), hmin0,
          by rw [hbr, hTw], by rw [hbr, hTh]⟩

/-- Witness for the C4 theorem: a 100 by 50 source enlarged toward a
200 by 200 target grows (to 200 by 100) and still fits the target. -/
theorem get_artwork_resize_claim_witness :
    100 ≤ (resize_step ⟨100, 50⟩ 200 200 true).w ∧
    50 ≤ (resize_step ⟨100, 50⟩ 200 200 true).h ∧
    (resize_step ⟨100, 50⟩ 200 200 true).w ≤ 200 ∧
    (resize_step ⟨100, 50⟩ 200 200 true).h ≤ 200 := by
  have h := get_artwork_resize_claim ⟨100, 50⟩ 200 200 true (by decide) (by decide)
  have h2 := h.1 ⟨rfl, by decide, by decide⟩
  exact ⟨h2.1, h2.2.1, h2.2.2.2.1, h2.2.2.2.2⟩

/-! ## Theorems for claim C5 -/

/-- Claim C5 (confirmed): with a cached static image built by the audio
side and all four fingerprint labels (track number, title, album,
duration) equal to the stored values, audio_screens pastes the cached
object and does not rerun the static render (flag false); if any of the
four differs, the static image is rebuilt and the stored fingerprint
replaced by the new values. -/
theorem audio_screens_cache_claim (render : AudioFields → Nat)
    (s : AudioCacheState) (info : AudioFields) :
    (∀ img, s.static_image = some img → s.static_video = false →
        s.last_track_num = some info.trackNumber →
        s.last_track_title = some info.title →
        s.last_track_album = some info.album →
        s.last_track_time = some info.duration →
        audio_screens_cache_step render s info = (s, img, false)) ∧
    ((s.last_track_num ≠ some info.trackNumber ∨
      s.last_track_title ≠ some info.title ∨
      s.last_track_album ≠ some info.album ∨
      s.last_track_time ≠ some info.duration) →
        audio_screens_cache_step render s info =
          ({ static_image := some (render info),
             static_video := false,
             last_track_num := some info.trackNumber,
             last_track_title := some info.title,
             last_track_album := some info.album,
             last_track_time := some info.duration }, render info, true)) := by
  constructor
  · intro img h1 h2 h3 h4 h5 h6
    unfold audio_screens_cache_step
    rw [h1]
    simp [h2, h3, h4, h5, h6]
  · intro hdiff
    have hcond : ¬(s.static_video = false ∧
        s.last_track_num = some info.trackNumber ∧
        s.last_track_title = some info.title ∧
        s.last_track_album = some info.album ∧
        s.last_track_time = some info.duration) := by
      rintro ⟨c1, c2, c3, c4, c5⟩
      rcases hdiff with h | h | h | h
      · exact h c2
      · exact h c3
      · exact h c4
      · exact h c5
    unfold audio_screens_cache_step
    cases s.static_image with
    | none => rfl
    | some img => simp [hcond]

/-- Witness for the C5 theorem: a repeated tick on the same track reuses
the cached static image 3 with no re-render. -/
theorem audio_screens_cache_claim_witness :
    audio_screens_cache_step (fun _ => 7)
        ⟨some 3, false, some "1", some "Song", some "Album", some "3:00"⟩
        ⟨"1", "Song", "Album", "3:00"⟩ =
      (⟨some 3, false, some "1", some "Song", some "Album", some "3:00"⟩, 3, false) :=
  (audio_screens_cache_claim (fun _ => 7)
      ⟨some 3, false, some "1", some "Song", some "Album", some "3:00"⟩
      ⟨"1", "Song", "Album", "3:00"⟩).1 3 rfl rfl rfl rfl rfl rfl

/-! ## Theorems for claim C6 -/

/-- Claim C6 counterexample.  On a glitch tick taken from a state with
no cached static image, the top-of-update_display wipe blanks the shared
frame (the prior content is lost, and the blank frame is what
device.display then shows), so the frame is not left exactly as the
previous tick left it; and a glitch tick carrying a screen press clears
the cached static image. -/
theorem update_display_glitch_cex :
    glitchTick glitchInfo = true ∧
    stateNoStatic.frame = Frame.prior 5 ∧
    (update_display_audio (fun s _ => s) false stateNoStatic false glitchInfo).frame
        = Frame.blank ∧
    Frame.blank ≠ Frame.prior 5 ∧
    stateWithStatic.cache.static_image = some 3 ∧
    (update_display_audio (fun s _ => s) false stateWithStatic true
        glitchInfo).cache.static_image = none := by
  exact ⟨rfl, rfl, by decide, by decide, rfl, by decide⟩

/-- Claim C6 (amended): on a glitch tick (zero time, empty duration and
cover) with the session connected, a cached static image present and no
screen press, update_display leaves the frame, the static cache, the
artwork memory and every other component unchanged except the
_kodi_playing flag, and renders nothing; without a cached static image
the same tick still skips the audio render but blanks the shared frame
first, and a pending press clears the caches before the glitch check. -/
theorem update_display_glitch_amended
    (audioScreens : PanelState → AudioTickInfo → PanelState)
    (autoselect : Bool) (s : PanelState) (info : AudioTickInfo)
    (hst : s.cache.static_image.isSome = true)
    (hcon : s.kodi_connected = true)
    (hpress : s.screen_press = false)
    (hglitch : glitchTick info = true) :
    update_display_audio audioScreens autoselect s false info =
      { s with kodi_playing := true } := by
  obtain ⟨img, himg⟩ := Option.isSome_iff_exists.mp hst
  simp [update_display_audio, himg, hcon, hpress, hglitch]

/-- Witness for the amended C6 theorem: the glitch tick on a state with
a cached static image only flips the playing flag. -/
theorem update_display_glitch_amended_witness :
    update_display_audio (fun s _ => s) false stateWithStatic false glitchInfo =
      { stateWithStatic with kodi_playing := true } :=
  update_display_glitch_amended (fun s _ => s) false stateWithStatic glitchInfo
    rfl rfl rfl rfl

/-! ## Theorems for claim C7 -/

/-- Claim C7 counterexample.  The communication-error handler of main
marks the session disconnected and re-enters liveness polling, but the
artwork memoization cache, the cached static image, the last thumbnail
and the last image timestamp all survive it un-cleared. -/
theorem main_comm_error_cex :
    (on_comm_error commErrState).kodi_connected = false ∧
    (on_comm_error commErrState).liveness_polling = true ∧
    (on_comm_error commErrState).artwork_cache ≠ [] ∧
    (on_comm_error commErrState).static_image ≠ none ∧
    (on_comm_error commErrState).last_thumb ≠ none ∧
    (on_comm_error commErrState).last_image_time ≠ none :=
  ⟨rfl, rfl, by decide, by decide, by decide, by decide⟩

/-- Claim C7 (amended): on a transport failure escaping update_display,
main clears the connected and playing flags and the pending press,
releases the lock and re-enters the liveness-polling state — but it
clears none of the per-session caches: the artwork memoization cache,
the static-render bitmap, and the last-reference artwork memory all keep
their values. -/
theorem main_comm_error_amended (s : LoopState) :
    on_comm_error s =
      { s with kodi_connected := false, kodi_playing := false,
               screen_press := false, lock_held := false,
               liveness_polling := true } ∧
    (on_comm_error s).artwork_cache = s.artwork_cache ∧
    (on_comm_error s).static_image = s.static_image ∧
    (on_comm_error s).last_thumb = s.last_thumb ∧
    (on_comm_error s).last_image_time = s.last_image_time :=
  ⟨rfl, rfl, rfl, rfl, rfl⟩

/-! ## Theorems for claim C8 -/

/-- Claim C8 counterexample.  With use_defaults set, a cover path that
must go through PrepareDownload whose reply carries no usable path
leaves image_url = None, and requests.get(None) raises to the caller
(modelled exn) instead of falling back to a default image. -/
theorem get_artwork_claim_cex :
    get_artwork failingEnv "special://masterprofile/thumb.jpg" 140 140 true false
      = .exn := by
  decide

/-- Claim C8 (amended): with use_defaults set, a non-200 response or
undecodable image bytes do degrade to the category default (video
default only for the DefaultVideoCover sentinel, audio default
otherwise) resized to the target — but a transport failure during
PrepareDownload or during the image fetch, and a PrepareDownload reply
without a path (a fetch of a null URL), raise to the caller. -/
theorem get_artwork_amended (env : ArtworkEnv) (p : String) (tw th : Nat)
    (ud enlarge : Bool) :
    (fetchPath p = false →
        get_artwork env p tw th ud enlarge =
          get_artwork_fallback env p tw th ud enlarge none) ∧
    (fetchPath p = true → resolvedUrl env p = .exn →
        get_artwork env p tw th ud enlarge = .exn) ∧
    (fetchPath p = true → resolvedUrl env p = .ok none →
        get_artwork env p tw th ud enlarge = .exn) ∧
    (∀ url, fetchPath p = true → resolvedUrl env p = .ok (some url) →
        (env.fetchDecode url = .exn →
            get_artwork env p tw th ud enlarge = .exn) ∧
        ((env.fetchDecode url = .ok none ∨ env.fetchDecode url = .ok (some none)) →
            get_artwork env p tw th ud enlarge =
              get_artwork_fallback env p tw th ud enlarge none) ∧
        (∀ img, env.fetchDecode url = .ok (some (some img)) →
            get_artwork env p tw th ud enlarge =
              .ok (some (resize_step img tw th enlarge)))) ∧
    (get_artwork_fallback env p tw th true enlarge none =
        .ok (some (resize_step
          (if startsWithS p "DefaultVideoCover" then env.defaultVideoImg
           else env.defaultAudioImg) tw th enlarge))) := by
  refine ⟨?_, ?_, ?_, ?_, ?_⟩
  · intro h
    simp [get_artwork, h]
  · intro h1 h2
    simp [get_artwork, h1, h2]
  · intro h1 h2
    simp [get_artwork, h1, h2]
  · intro url h1 h2
    refine ⟨?_, ?_, ?_⟩
    · intro h3
      simp [get_artwork, h1, h2, h3]
    · rintro (h3 | h3) <;> simp [get_artwork, h1, h2, h3]
    · intro img h3
      simp [get_artwork, get_artwork_fallback, h1, h2, h3]
  · simp [get_artwork_fallback]

/-- Witness for the amended C8 theorem: a direct http cover whose fetch
returns a non-200 status degrades to the audio default image resized to
the target. -/
theorem get_artwork_amended_witness :
    get_artwork failingEnv "http://host/cover.jpg" 140 140 true false =
      .ok (some (resize_step ⟨8, 8⟩ 140 140 false)) := by
  have h := get_artwork_amended failingEnv "http://host/cover.jpg" 140 140 true false
  rw [(h.2.2.2.1 "http://host/cover.jpg" (by decide) (by decide)).2.1 (Or.inl rfl)]
  decide

/-! ## Theorems for claim C9 -/

/-- Claim C9 (confirmed): two consecutive lru_cache-wrapped get_artwork
calls with the same key tuple return the same bitmap object, and the
second call never runs the body — so it performs no PrepareDownload and
no HTTP image fetch. -/
theorem get_artwork_memoized (f : ArtKey → Bitmap)
    (cache : List (ArtKey × Bitmap)) (k : ArtKey) :
    (lruCall 18 f ((lruCall 18 f cache k).2.1) k).1 = (lruCall 18 f cache k).1 ∧
    (lruCall 18 f ((lruCall 18 f cache k).2.1) k).2.2 = false := by
  cases h : cache.find? (fun p => p.1 == k) with
  | some hit =>
      have e1 : lruCall 18 f cache k =
          (hit.2, (k, hit.2) :: cache.filter (fun p => !(p.1 == k)), false) := by
        unfold lruCall
        rw [h]
      have e2 : List.find? (fun p => p.1 == k)
          ((k, hit.2) :: cache.filter (fun p => !(p.1 == k))) = some (k, hit.2) :=
        List.find?_cons_of_pos _ (by simp)
      rw [e1]
      unfold lruCall
      rw [e2]
      exact ⟨rfl, rfl⟩
  | none =>
      have e1 : lruCall 18 f cache k = (f k, ((k, f k) :: cache).take 18, true) := by
        unfold lruCall
        rw [h]
      have e2 : ((k, f k) :: cache).take 18 = (k, f k) :: cache.take 17 := rfl
      have e3 : List.find? (fun p => p.1 == k) ((k, f k) :: cache.take 17)
          = some (k, f k) :=
        List.find?_cons_of_pos _ (by simp)
      rw [e1]
      unfold lruCall
      rw [e2, e3]
      exact ⟨rfl, rfl⟩

/-! ## Theorems for claim C1 -/

/-- Claim C1 counterexample.  The claim fails on the code in three ways:
(a) at time "00:00" with duration "03:00" the function returns 0, which is
not strictly between 0 and 1; (b) a duration whose colon-separated parts
are not integers makes int() raise ValueError instead of returning -1;
(c) an empty time string returns the -1 sentinel even when the duration is
nonempty, parsable and nonzero, instead of current/total. -/
theorem calc_progress_claim_cex :
    (calc_progress "00:00" "03:00" "Default" = some 0 ∧
      ¬((0 : ℚ) > 0 ∧ (0 : ℚ) < 1)) ∧
    calc_progress "1:30" "a:b" "Default" = none ∧
    calc_progress "" "03:00" "Default" = some (-1) := by
  refine ⟨⟨?_, by norm_num⟩, rfl, rfl⟩
  rw [show calc_progress "00:00" "03:00" "Default"
        = some (((0 : Int) : ℚ) / ((180 : Int) : ℚ)) from rfl]
  norm_num

/-- Claim C1 (amended): calc_progress returns -1 when either string is
empty or either string's colon count is outside 1..2, and likewise when
both strings parse but the total is nonpositive or the current value is
negative; it raises ValueError (modelled none) when a colon-separated part
is not an integer; it returns exactly 1 when 0 ≤ current and
total ≤ current with total positive; and otherwise (0 ≤ current < total)
it returns current/total, a value at least 0 and strictly below 1. -/
theorem calc_progress_amended (t d l : String) :
    ((t = "" ∨ d = "") → calc_progress t d l = some (-1)) ∧
    (¬(colonCountOK t ∧ colonCountOK d) → t ≠ "" → d ≠ "" →
        calc_progress t d l = some (-1)) ∧
    ((parseSecs t = none ∨ parseSecs d = none) → t ≠ "" → d ≠ "" →
        colonCountOK t → colonCountOK d → calc_progress t d l = none) ∧
    (∀ cur total : Int, parseSecs t = some cur → parseSecs d = some total →
        t ≠ "" → d ≠ "" → colonCountOK t → colonCountOK d →
        ((total ≤ 0 ∨ cur < 0) → calc_progress t d l = some (-1)) ∧
        (0 ≤ cur → 0 < total → total ≤ cur → calc_progress t d l = some 1) ∧
        (0 ≤ cur → cur < total →
            calc_progress t d l = some ((cur : ℚ) / (total : ℚ)) ∧
            0 ≤ (cur : ℚ) / (total : ℚ) ∧ (cur : ℚ) / (total : ℚ) < 1)) := by
  refine ⟨?_, ?_, ?_, ?_⟩
  · intro h
    unfold calc_progress
    rw [if_pos h]
  · intro hc ht hd
    unfold calc_progress
    rw [if_neg (by simp [ht, hd]), if_pos hc]
  · intro hp ht hd hct hcd
    unfold calc_progress
    rw [if_neg (by simp [ht, hd]), if_neg (by simp [hct, hcd])]
    rcases hp with hp | hp
    · rw [hp]
    · rw [hp]
      cases parseSecs t <;> rfl
  · intro cur total hpt hpd ht hd hct hcd
    have hbase : calc_progress t d l =
        (if 0 ≤ cur ∧ 0 < total then
          if total ≤ cur then some 1
          else some ((cur : ℚ) / (total : ℚ))
        else some (-1)) := by
      unfold calc_progress
      rw [if_neg (by simp [ht, hd]), if_neg (by simp [hct, hcd]), hpt, hpd]
    refine ⟨?_, ?_, ?_⟩
    · intro h
      rw [hbase, if_neg ?_]
      rintro ⟨h0, h1⟩
      rcases h with h | h
      · exact absurd h1 (not_lt.mpr h)
      · exact absurd h0 (not_le.mpr h)
    · intro h0 h1 h2
      rw [hbase, if_pos ⟨h0, h1⟩, if_pos h2]
    · intro h0 h2
      have h1 : 0 < total := lt_of_le_of_lt h0 h2
      have htq : (0 : ℚ) < (total : ℚ) := by exact_mod_cast h1
      refine ⟨?_, ?_, ?_⟩
      · rw [hbase, if_pos ⟨h0, h1⟩, if_neg (not_le.mpr h2)]
      · exact div_nonneg (by exact_mod_cast h0) (le_of_lt htq)
      · exact (div_lt_one htq).mpr (by exact_mod_cast h2)

/-- Witness for the amended C1 theorem: a concrete mid-track evaluation,
90 seconds into a 180-second song. -/
theorem calc_progress_amended_witness :
    calc_progress "01:30" "03:00" "Default"
        = some (((90 : Int) : ℚ) / ((180 : Int) : ℚ)) ∧
    0 ≤ ((90 : Int) : ℚ) / ((180 : Int) : ℚ) ∧
    ((90 : Int) : ℚ) / ((180 : Int) : ℚ) < 1 :=
  ((calc_progress_amended "01:30" "03:00" "Default").2.2.2 90 180 rfl rfl
      (by decide) (by decide) (by decide) (by decide)).2.2
    (by decide) (by decide)

end KodiPanel
